import Mathlib

/-!
Verification of the WeKnora unified chat abstraction
(`internal/models/chat`): the remote (OpenAI-compatible) adapter with its
streaming tool-call accumulator, and the local (Ollama) adapter.

Shallow embedding conventions:
  * Go `string` is Lean `String`; Go `float64` is `ℚ` (only comparisons
    with zero and verbatim forwarding occur, so rationals are faithful);
    Go `int` is `Int`.
  * Go maps keyed by `int` are association lists `List (Int × α)` in
    insertion order; a zero-value read of an absent key is `(alGet m k).getD d`.
  * A `nil` Go slice and an empty slice are both the empty list `[]`.
  * Channel sends are collected into the list of emitted events, in order.
  * Fallible Go functions returning `(T, error)` become `Except String T`.
-/

namespace WeKnora

/-- types.FunctionCall: a (possibly still accumulating) function call. -/
structure FunctionCall where
  name : String
  arguments : String
deriving Repr, DecidableEq

/-- types.LLMToolCall: a resolved or in-progress tool call. -/
structure LLMToolCall where
  id : String
  type : String
  function : FunctionCall
deriving Repr, DecidableEq

/-- types.ResponseType values used by the chat adapters:
`types.ResponseTypeAnswer` and `types.ResponseTypeToolCall`. -/
inductive ResponseType where
  | answer
  | toolCall
deriving Repr, DecidableEq

/-- The `data` payload of a tool-call-started notification: the Go code
fills a `map[string]interface{}` with exactly the keys `tool_name` and
`tool_call_id`. -/
structure NotifData where
  toolName : String
  toolCallID : String
deriving Repr, DecidableEq

/-- types.StreamResponse: one event of a chat stream. -/
structure StreamResponse where
  responseType : ResponseType
  content : String
  done : Bool
  toolCalls : List LLMToolCall := []
  data : Option NotifData := none
deriving Repr, DecidableEq

/-- One element of `delta.ToolCalls` in an openai streaming chunk
(`openai.ToolCall` with optional `Index`). -/
structure ToolCallDelta where
  index : Option Int
  id : String
  type : String
  function : FunctionCall
deriving Repr, DecidableEq

/-- `openai.ChatCompletionStreamChoiceDelta`, restricted to the fields the
adapter reads. -/
structure ChatDelta where
  content : String
  toolCalls : List ToolCallDelta
deriving Repr, DecidableEq

/-- One choice of a streaming chunk: the delta plus the provider-reported
finish reason (empty string when absent). -/
structure StreamChoice where
  delta : ChatDelta
  finishReason : String
deriving Repr, DecidableEq

/-- One streaming chunk as returned by `stream.Recv()`. -/
structure StreamChunk where
  choices : List StreamChoice
deriving Repr, DecidableEq

/-! ### Association lists standing for Go maps keyed by `int` -/

/-- Lookup in an association list (Go map read). -/
def alGet {α : Type} : List (Int × α) → Int → Option α
  | [], _ => none
  | (k', v) :: rest, k => if k' = k then some v else alGet rest k

/-- Insert or overwrite in an association list (Go map write); a fresh key
is appended, so insertion order is preserved and keys stay distinct. -/
def alSet {α : Type} : List (Int × α) → Int → α → List (Int × α)
  | [], k, v => [(k, v)]
  | (k', v') :: rest, k, v =>
      if k' = k then (k, v) :: rest else (k', v') :: alSet rest k v

@[simp]
theorem alGet_nil {α : Type} (k : Int) : alGet ([] : List (Int × α)) k = none := rfl

theorem alGet_alSet_self {α : Type} (m : List (Int × α)) (k : Int) (v : α) :
    alGet (alSet m k v) k = some v := by
  induction m with
  | nil => simp [alGet, alSet]
  | cons hd tl ih =>
    obtain ⟨k', v'⟩ := hd
    by_cases h : k' = k
    · simp [alGet, alSet, h]
    · simp [alGet, alSet, h, ih]

theorem alGet_alSet_ne {α : Type} (m : List (Int × α)) (k k' : Int) (v : α)
    (h : k ≠ k') : alGet (alSet m k v) k' = alGet m k' := by
  induction m with
  | nil => simp [alGet, alSet, h]
  | cons hd tl ih =>
    obtain ⟨k₀, v₀⟩ := hd
    by_cases h₀ : k₀ = k
    · simp [alGet, alSet, h₀, h]
    · by_cases h₁ : k₀ = k'
      · simp [alGet, alSet, h₀, h₁, Ne.symm h]
      · simp [alGet, alSet, h₀, h₁, ih]

/-! ### The streaming tool-call accumulator (remote adapter, `ChatStream`) -/

/-- The state held by the goroutine of `RemoteAPIChat.ChatStream`:
`toolCallMap`, `lastFunctionName`, `nameNotified`. -/
structure StreamState where
  toolCallMap : List (Int × LLMToolCall)
  lastFunctionName : List (Int × String)
  nameNotified : List (Int × Bool)
deriving Repr, DecidableEq

def initialStreamState : StreamState := ⟨[], [], []⟩

/-- Effective index of a delta: `*tc.Index` when present, else the Go zero
value `0`. -/
def effIndex (tc : ToolCallDelta) : Int := tc.index.getD 0

/-- The entry freshly inserted into `toolCallMap` when the index is new:
`{Type: string(tc.Type), Function: {Name: "", Arguments: ""}}` (ID is the
Go zero value). -/
def initEntry (tc : ToolCallDelta) : LLMToolCall :=
  { id := "", type := tc.type, function := { name := "", arguments := "" } }

/-- The in-place updates applied to the map entry for one delta: overwrite
`ID`/`Type` when the fragment carries them, append `Name`/`Arguments`
fragments. -/
def updEntry (e : LLMToolCall) (tc : ToolCallDelta) : LLMToolCall :=
  let e1 := if tc.id ≠ "" then { e with id := tc.id } else e
  let e2 := if tc.type ≠ "" then { e1 with type := tc.type } else e1
  let e3 := if tc.function.name ≠ "" then
      { e2 with function := { e2.function with
          name := e2.function.name ++ tc.function.name } } else e2
  if tc.function.arguments ≠ "" then
    { e3 with function := { e3.function with
        arguments := e3.function.arguments ++ tc.function.arguments } }
  else e3

/-- Processing of one `tc` inside the `for _, tc := range delta.ToolCalls`
loop: update the maps and possibly emit the tool-call-started
notification. -/
def processOneToolCallDelta (st : StreamState) (tc : ToolCallDelta) :
    StreamState × Option StreamResponse :=
  let k := effIndex tc
  let e := updEntry ((alGet st.toolCallMap k).getD (initEntry tc)) tc
  let currName := e.function.name
  let doNotify : Prop :=
    currName ≠ "" ∧
    currName = (alGet st.lastFunctionName k).getD "" ∧
    tc.function.arguments ≠ "" ∧
    (alGet st.nameNotified k).getD false = false ∧
    e.id ≠ ""
  let notif : Option StreamResponse :=
    if doNotify then
      some { responseType := .toolCall, content := "", done := false,
             toolCalls := [],
             data := some { toolName := currName, toolCallID := e.id } }
    else none
  ({ toolCallMap := alSet st.toolCallMap k e,
     lastFunctionName := alSet st.lastFunctionName k currName,
     nameNotified :=
       if doNotify then alSet st.nameNotified k true else st.nameNotified },
   notif)

/-- Processing of a whole `delta.ToolCalls` list; emitted notifications are
tagged with the effective index of the delta that produced them. -/
def procDeltas (st : StreamState) : List ToolCallDelta →
    StreamState × List (Int × StreamResponse)
  | [] => (st, [])
  | tc :: rest =>
    let r := processOneToolCallDelta st tc
    let r2 := procDeltas r.1 rest
    (r2.1,
     (match r.2 with
      | some ev => [(effIndex tc, ev)]
      | none => []) ++ r2.2)

/-- `buildOrderedToolCalls`: iterate `i` from `0` to `len(toolCallMap)-1`
and collect present entries (a `nil` result and an empty result are both
`[]`). -/
def buildOrderedToolCalls (m : List (Int × LLMToolCall)) : List LLMToolCall :=
  (List.range m.length).filterMap (fun i => alGet m (Int.ofNat i))

/-- Processing of one chunk received from the stream: accumulate tool-call
deltas (emitting notifications), then the content-bearing event, then the
inline terminal event when the provider signals a finish and tool calls
were accumulated.  Besides the flat event list, the tagged notification
list is carried along for bookkeeping. -/
def processChunk (st : StreamState) (ch : StreamChunk) :
    StreamState × List StreamResponse × List (Int × StreamResponse) :=
  match ch.choices with
  | [] => (st, [], [])
  | choice :: _ =>
    let isDone : Bool := decide (choice.finishReason ≠ "")
    let r := procDeltas st choice.delta.toolCalls
    let contentEvents : List StreamResponse :=
      if choice.delta.content ≠ "" then
        [{ responseType := .answer, content := choice.delta.content,
           done := isDone,
           toolCalls := buildOrderedToolCalls r.1.toolCallMap }]
      else []
    let doneEvents : List StreamResponse :=
      if isDone = true ∧ r.1.toolCallMap ≠ [] then
        [{ responseType := .answer, content := "", done := true,
           toolCalls := buildOrderedToolCalls r.1.toolCallMap }]
      else []
    (r.1, r.2.map (·.2) ++ contentEvents ++ doneEvents, r.2)

/-- The receive loop over the successful chunks of one stream. -/
def runChunks (st : StreamState) : List StreamChunk →
    StreamState × List StreamResponse × List (Int × StreamResponse)
  | [] => (st, [], [])
  | ch :: rest =>
    let r := processChunk st ch
    let r2 := runChunks r.1 rest
    (r2.1, r.2.1 ++ r2.2.1, r.2.2 ++ r2.2.2)

/-- The event sent when `stream.Recv()` returns an error (EOF or any
transport failure): a terminal answer event with the collected tool
calls. -/
def finalDoneEvent (st : StreamState) : StreamResponse :=
  { responseType := .answer, content := "", done := true,
    toolCalls := buildOrderedToolCalls st.toolCallMap }

/-- The full event sequence produced on `streamChan` by the goroutine of
`RemoteAPIChat.ChatStream`, for a stream that delivers `chunks`
successfully and then ends (EOF or mid-stream transport error). -/
def runStream (chunks : List StreamChunk) : List StreamResponse :=
  let r := runChunks initialStreamState chunks
  r.2.1 ++ [finalDoneEvent r.1]

/-- Final accumulator state of a stream. -/
def streamFinalState (chunks : List StreamChunk) : StreamState :=
  (runChunks initialStreamState chunks).1

/-- The tool-call-started notifications of a stream, tagged with the index
they were emitted for. -/
def streamNotifs (chunks : List StreamChunk) : List (Int × StreamResponse) :=
  (runChunks initialStreamState chunks).2.2

/-- The tool-call deltas contained in one chunk (first choice only, as read
by the loop). -/
def chunkDeltas (ch : StreamChunk) : List ToolCallDelta :=
  match ch.choices with
  | [] => []
  | choice :: _ => choice.delta.toolCalls

/-- All tool-call deltas of a stream, in arrival order. -/
def streamDeltas (chunks : List StreamChunk) : List ToolCallDelta :=
  (chunks.map chunkDeltas).flatten

/-! ### Messages, options and request building (remote adapter) -/

/-- chat.ToolCall (and, shape-wise, `openai.ToolCall` in responses). -/
structure ToolCall where
  id : String
  type : String
  function : FunctionCall
deriving Repr, DecidableEq

/-- chat.FunctionDef; `parameters` is a JSON-Schema-shaped object, kept
opaque here as its serialized form. -/
structure FunctionDef where
  name : String
  description : String
  parameters : Option String
deriving Repr, DecidableEq

/-- chat.Tool. -/
structure Tool where
  type : String
  function : FunctionDef
deriving Repr, DecidableEq

/-- chat.Message. -/
structure Message where
  role : String
  content : String
  name : String := ""
  toolCallID : String := ""
  toolCalls : List ToolCall := []
deriving Repr, DecidableEq

/-- chat.ChatOptions (the `seed` field is never read by either adapter
and is omitted). -/
structure ChatOptions where
  temperature : ℚ := 0
  topP : ℚ := 0
  maxTokens : Int := 0
  maxCompletionTokens : Int := 0
  frequencyPenalty : ℚ := 0
  presencePenalty : ℚ := 0
  thinking : Option Bool := none
  tools : List Tool := []
  toolChoice : String := ""
deriving Repr, DecidableEq

/-- openai.ChatCompletionMessage as built by
`RemoteAPIChat.convertMessages`. -/
structure OpenAIMessage where
  role : String
  content : String := ""
  name : String := ""
  toolCallID : String := ""
  toolCalls : List ToolCall := []
deriving Repr, DecidableEq

/-- The `ToolChoice` field of the outgoing request (`any` in Go):
absent, a literal string, or a structured named-tool directive
`openai.ToolChoice{Type: "function", Function: {Name: ...}}`. -/
inductive ToolChoiceField where
  | unset
  | str (s : String)
  | named (fn : String)
deriving Repr, DecidableEq

/-- openai.Tool as built for the outgoing request. -/
structure OpenAITool where
  type : String
  function : FunctionDef
deriving Repr, DecidableEq

/-- openai.ChatCompletionRequest, restricted to the fields the adapter
writes; a zero numeric value means the field is omitted (`omitempty`).
`enableThinkingKwarg` is `ChatTemplateKwargs["enable_thinking"]`. -/
structure ChatCompletionRequest where
  model : String
  messages : List OpenAIMessage
  stream : Bool
  temperature : ℚ := 0
  topP : ℚ := 0
  maxTokens : Int := 0
  maxCompletionTokens : Int := 0
  frequencyPenalty : ℚ := 0
  presencePenalty : ℚ := 0
  tools : List OpenAITool := []
  toolChoice : ToolChoiceField := .unset
  enableThinkingKwarg : Bool := false
deriving Repr, DecidableEq

/-- The configuration of one `RemoteAPIChat` instance. -/
structure RemoteAPIChat where
  modelName : String
  modelID : String
  baseURL : String
  apiKey : String
deriving Repr, DecidableEq

/-- List-level check that `pre` begins `s` (Go `strings.HasPrefix`). -/
def strHasPre (s pre : String) : Bool := List.isPrefixOf pre.data s.data

/-- List-level substring containment (Go `strings.Contains`). -/
def listIsSub : List Char → List Char → Bool
  | _, [] => true
  | [], _ => false
  | a :: as, b :: bs =>
      (a == b && List.isPrefixOf bs as) || listIsSub as (b :: bs)

def strContains (s pat : String) : Bool := listIsSub s.data pat.data

/-- Character-wise lower-casing (Go `strings.ToLower` on the names that
occur here). -/
def strToLower (s : String) : String := ⟨s.data.map Char.toLower⟩

/-- `RemoteAPIChat.isAliyunQwen3Model`. -/
def isAliyunQwen3Model (c : RemoteAPIChat) : Bool :=
  strHasPre c.modelName "qwen3-" &&
    c.baseURL == "https://dashscope.aliyuncs.com/compatible-mode/v1"

/-- `RemoteAPIChat.isDeepSeekModel`. -/
def isDeepSeekModel (c : RemoteAPIChat) : Bool :=
  strContains (strToLower c.modelName) "deepseek"

/-- `RemoteAPIChat.convertMessages`. -/
def convertMessages (messages : List Message) : List OpenAIMessage :=
  messages.map (fun msg =>
    let m : OpenAIMessage := { role := msg.role }
    let m := if msg.content ≠ "" then { m with content := msg.content } else m
    let m := if msg.toolCalls ≠ [] then { m with toolCalls := msg.toolCalls } else m
    if msg.role = "tool" then
      { m with toolCallID := msg.toolCallID, name := msg.name }
    else m)

/-- `RemoteAPIChat.buildChatCompletionRequest`. -/
def buildChatCompletionRequest (c : RemoteAPIChat) (messages : List Message)
    (opts : Option ChatOptions) (isStream : Bool) : ChatCompletionRequest :=
  let req : ChatCompletionRequest :=
    { model := c.modelName, messages := convertMessages messages,
      stream := isStream }
  match opts with
  | none => { req with enableThinkingKwarg := false }
  | some o =>
    let req := if o.temperature > 0 then { req with temperature := o.temperature } else req
    let req := if o.topP > 0 then { req with topP := o.topP } else req
    let req := if o.maxTokens > 0 then { req with maxTokens := o.maxTokens } else req
    let req := if o.maxCompletionTokens > 0 then
        { req with maxCompletionTokens := o.maxCompletionTokens } else req
    let req := if o.frequencyPenalty > 0 then
        { req with frequencyPenalty := o.frequencyPenalty } else req
    let req := if o.presencePenalty > 0 then
        { req with presencePenalty := o.presencePenalty } else req
    let thinking := o.thinking.getD false
    let req := if o.tools ≠ [] then
        { req with tools := o.tools.map (fun t =>
            { type := t.type, function := t.function }) }
      else req
    let req :=
      if o.toolChoice ≠ "" then
        if isDeepSeekModel c then req
        else if o.toolChoice = "none" ∨ o.toolChoice = "required" ∨ o.toolChoice = "auto" then
          { req with toolChoice := .str o.toolChoice }
        else
          { req with toolChoice := .named o.toolChoice }
      else req
    { req with enableThinkingKwarg := thinking }

/-- QwenChatCompletionRequest: the generic request plus the qwen-specific
`enable_thinking` top-level field (`nil` pointer = absent). -/
structure QwenChatCompletionRequest where
  base : ChatCompletionRequest
  enableThinking : Option Bool := none
deriving Repr, DecidableEq

/-- `RemoteAPIChat.buildQwenChatCompletionRequest`. -/
def buildQwenChatCompletionRequest (c : RemoteAPIChat) (messages : List Message)
    (opts : Option ChatOptions) (isStream : Bool) : QwenChatCompletionRequest :=
  let req : QwenChatCompletionRequest :=
    { base := buildChatCompletionRequest c messages opts isStream }
  if !isStream then { req with enableThinking := some false } else req

/-- Which transport the non-streaming `Chat` uses, and the request it
sends: a raw HTTP POST for the qwen family, the generic openai client
otherwise. -/
inductive ChatRoute where
  | qwenRaw (req : QwenChatCompletionRequest)
  | generic (req : ChatCompletionRequest)
deriving Repr, DecidableEq

/-- The dispatch at the top of `RemoteAPIChat.Chat`. -/
def chatRoute (c : RemoteAPIChat) (messages : List Message)
    (opts : Option ChatOptions) : ChatRoute :=
  if isAliyunQwen3Model c then
    .qwenRaw (buildQwenChatCompletionRequest c messages opts false)
  else
    .generic (buildChatCompletionRequest c messages opts false)

/-! ### Non-streaming response handling (remote adapter) -/

/-- The message inside one response choice. -/
structure ChoiceMessage where
  role : String := ""
  content : String
  toolCalls : List ToolCall := []
deriving Repr, DecidableEq

structure Choice where
  message : ChoiceMessage
  finishReason : String
deriving Repr, DecidableEq

structure Usage where
  promptTokens : Int
  completionTokens : Int
  totalTokens : Int
deriving Repr, DecidableEq

structure ChatCompletionResponse where
  choices : List Choice
  usage : Usage
deriving Repr, DecidableEq

/-- types.ChatResponse. -/
structure ChatResponse where
  content : String
  finishReason : String
  usage : Usage
  toolCalls : List LLMToolCall := []
deriving Repr, DecidableEq

/-- The per-element tool-call translation of a response choice (a `nil`
slice for zero tool calls and a mapped slice coincide as `[]`/map). -/
def convertRespToolCalls (tcs : List ToolCall) : List LLMToolCall :=
  tcs.map (fun tc =>
    { id := tc.id, type := tc.type,
      function := { name := tc.function.name,
                    arguments := tc.function.arguments } })

/-- The response-to-`ChatResponse` conversion of `RemoteAPIChat.Chat`
(generic path) after the transport call succeeded. -/
def chatFromResponse (resp : ChatCompletionResponse) : Except String ChatResponse :=
  match resp.choices with
  | [] => .error "no response from OpenAI"
  | choice :: _ =>
    .ok { content := choice.message.content,
          finishReason := choice.finishReason,
          usage := resp.usage,
          toolCalls := convertRespToolCalls choice.message.toolCalls }

/-- `RemoteAPIChat.Chat`, generic path: transport failure is wrapped and
returned; otherwise the response is converted. -/
def chatGeneric (call : Except String ChatCompletionResponse) :
    Except String ChatResponse :=
  match call with
  | .error e => .error ("create chat completion: " ++ e)
  | .ok resp => chatFromResponse resp

/-- `RemoteAPIChat.chatWithQwen` after the POST: non-200 status fails,
an undecodable body fails, zero choices fail, otherwise the first choice
is converted exactly as on the generic path. -/
def chatWithQwen (status : Int) (decoded : Except String ChatCompletionResponse) :
    Except String ChatResponse :=
  if status ≠ 200 then .error ("API request failed with status: " ++ toString status)
  else
    match decoded with
    | .error e => .error ("decode response: " ++ e)
    | .ok resp =>
      match resp.choices with
      | [] => .error "no response from API"
      | choice :: _ =>
        .ok { content := choice.message.content,
              finishReason := choice.finishReason,
              usage := resp.usage,
              toolCalls := convertRespToolCalls choice.message.toolCalls }

/-- `RemoteAPIChat.ChatStream` seen from the caller: a stream-creation
failure is returned synchronously and no channel is produced; otherwise
the channel carries exactly the `runStream` events. -/
def chatStreamRemote (createResult : Except String (List StreamChunk)) :
    Except String (List StreamResponse) :=
  match createResult with
  | .error e => .error ("create chat completion stream: " ++ e)
  | .ok chunks => .ok (runStream chunks)

/-! ### The local (Ollama) adapter -/

/-- ollama api.Message, restricted to the fields relevant here; the real
type also has a `ToolCalls` field, which `convertMessages` never sets. -/
structure OllamaMessage where
  role : String
  content : String
  toolCalls : List ToolCall := []
deriving Repr, DecidableEq

/-- A value in the runtime's dynamic options bag. -/
inductive OllamaOptVal where
  | num (q : ℚ)
  | int (n : Int)
deriving Repr, DecidableEq

/-- ollama api.ChatRequest, restricted to the fields relevant here; the
real type also has a `Tools` field, which `buildChatRequest` never sets. -/
structure OllamaChatRequest where
  model : String
  messages : List OllamaMessage
  stream : Bool
  options : List (String × OllamaOptVal)
  think : Option Bool := none
  tools : List Tool := []
deriving Repr, DecidableEq

structure OllamaChat where
  modelName : String
  modelID : String
deriving Repr, DecidableEq

/-- `OllamaChat.convertMessages`: only role and content survive. -/
def convertMessagesOllama (messages : List Message) : List OllamaMessage :=
  messages.map (fun msg => { role := msg.role, content := msg.content })

/-- `OllamaChat.buildChatRequest`. -/
def buildChatRequest (c : OllamaChat) (messages : List Message)
    (opts : Option ChatOptions) (isStream : Bool) : OllamaChatRequest :=
  let base : OllamaChatRequest :=
    { model := c.modelName, messages := convertMessagesOllama messages,
      stream := isStream, options := [] }
  match opts with
  | none => base
  | some o =>
    { base with
      options :=
        (if o.temperature > 0 then [("temperature", OllamaOptVal.num o.temperature)] else []) ++
        (if o.topP > 0 then [("top_p", OllamaOptVal.num o.topP)] else []) ++
        (if o.maxTokens > 0 then [("num_predict", OllamaOptVal.int o.maxTokens)] else []),
      think := o.thinking }

/-- ollama api.ChatResponse, restricted to the fields the adapter reads. -/
structure OllamaChatResponse where
  message : OllamaMessage
  done : Bool
  promptEvalCount : Int := 0
  evalCount : Int := 0
deriving Repr, DecidableEq

/-- The events sent on `streamChan` by the goroutine of
`OllamaChat.ChatStream`: one answer event per callback with non-empty
content, a terminal event when the runtime reports `done`, and a terminal
event when `ollamaService.Chat` returns an error. -/
def localStreamEvents (resps : List OllamaChatResponse) (errAfter : Bool) :
    List StreamResponse :=
  (resps.map (fun r =>
    (if r.message.content ≠ "" then
      [({ responseType := .answer, content := r.message.content,
          done := false } : StreamResponse)] else []) ++
    (if r.done then
      [({ responseType := .answer, content := "", done := true } : StreamResponse)]
     else []))).flatten ++
  (if errAfter then
    [({ responseType := .answer, content := "", done := true } : StreamResponse)]
   else [])

/-- `OllamaChat.ChatStream` seen from the caller: a failing
`ensureModelAvailable` is returned synchronously and no channel is
produced; otherwise the channel carries exactly the `localStreamEvents`
of the callback sequence (`errAfter` marks a runtime error after the
stream started). -/
def ollamaChatStream (ensureErr : Option String)
    (resps : List OllamaChatResponse) (errAfter : Bool) :
    Except String (List StreamResponse) :=
  match ensureErr with
  | some e => .error e
  | none => .ok (localStreamEvents resps errAfter)

/-! ### Lemmas about the accumulator -/

theorem str_append_empty (s : String) : s ++ "" = s := String.append_empty s

theorem str_append_assoc (a b c : String) : a ++ b ++ c = a ++ (b ++ c) :=
  String.append_assoc a b c

/-- Appending an empty name fragment is a no-op, so the conditional append
in `updEntry` is an unconditional concatenation. -/
theorem updEntry_name (e : LLMToolCall) (tc : ToolCallDelta) :
    (updEntry e tc).function.name = e.function.name ++ tc.function.name := by
  unfold updEntry
  by_cases h1 : tc.id ≠ "" <;> by_cases h2 : tc.type ≠ "" <;>
    by_cases h3 : tc.function.name ≠ "" <;> by_cases h4 : tc.function.arguments ≠ "" <;>
    simp_all [str_append_empty]

theorem updEntry_args (e : LLMToolCall) (tc : ToolCallDelta) :
    (updEntry e tc).function.arguments =
      e.function.arguments ++ tc.function.arguments := by
  unfold updEntry
  by_cases h1 : tc.id ≠ "" <;> by_cases h2 : tc.type ≠ "" <;>
    by_cases h3 : tc.function.name ≠ "" <;> by_cases h4 : tc.function.arguments ≠ "" <;>
    simp_all [str_append_empty]

theorem updEntry_id (e : LLMToolCall) (tc : ToolCallDelta) :
    (updEntry e tc).id = if tc.id ≠ "" then tc.id else e.id := by
  unfold updEntry
  by_cases h1 : tc.id ≠ "" <;> by_cases h2 : tc.type ≠ "" <;>
    by_cases h3 : tc.function.name ≠ "" <;> by_cases h4 : tc.function.arguments ≠ "" <;>
    simp_all

theorem updEntry_type (e : LLMToolCall) (tc : ToolCallDelta) :
    (updEntry e tc).type = if tc.type ≠ "" then tc.type else e.type := by
  unfold updEntry
  by_cases h1 : tc.id ≠ "" <;> by_cases h2 : tc.type ≠ "" <;>
    by_cases h3 : tc.function.name ≠ "" <;> by_cases h4 : tc.function.arguments ≠ "" <;>
    simp_all

/-- Pure replay of the per-index accumulation over a delta list, starting
from an optional pre-existing entry: exactly the lookup-or-create-then-
update step of the loop. -/
def accumAt : List ToolCallDelta → Option LLMToolCall → Option LLMToolCall
  | [], acc => acc
  | tc :: rest, acc => accumAt rest (some (updEntry (acc.getD (initEntry tc)) tc))

/-- Concatenation of the name fragments of a delta list, in order. -/
def concatNames : List ToolCallDelta → String
  | [] => ""
  | tc :: rest => tc.function.name ++ concatNames rest

/-- Concatenation of the arguments fragments of a delta list, in order. -/
def concatArgs : List ToolCallDelta → String
  | [] => ""
  | tc :: rest => tc.function.arguments ++ concatArgs rest

/-- Last-non-empty-fragment semantics (field overwrite). -/
def lastNonEmpty (f : ToolCallDelta → String) : List ToolCallDelta → String → String
  | [], base => base
  | tc :: rest, base => lastNonEmpty f rest (if f tc ≠ "" then f tc else base)

theorem accumAt_some_name (ds : List ToolCallDelta) :
    ∀ e : LLMToolCall, ∃ e', accumAt ds (some e) = some e' ∧
      e'.function.name = e.function.name ++ concatNames ds := by
  induction ds with
  | nil => intro e; exact ⟨e, rfl, (str_append_empty _).symm⟩
  | cons tc rest ih =>
    intro e
    obtain ⟨e', h1, h2⟩ := ih (updEntry e tc)
    refine ⟨e', h1, ?_⟩
    rw [h2, updEntry_name, concatNames, str_append_assoc]

theorem accumAt_some_args (ds : List ToolCallDelta) :
    ∀ e : LLMToolCall, ∃ e', accumAt ds (some e) = some e' ∧
      e'.function.arguments = e.function.arguments ++ concatArgs ds := by
  induction ds with
  | nil => intro e; exact ⟨e, rfl, (str_append_empty _).symm⟩
  | cons tc rest ih =>
    intro e
    obtain ⟨e', h1, h2⟩ := ih (updEntry e tc)
    refine ⟨e', h1, ?_⟩
    rw [h2, updEntry_args, concatArgs, str_append_assoc]

theorem accumAt_some_id (ds : List ToolCallDelta) :
    ∀ e : LLMToolCall, ∃ e', accumAt ds (some e) = some e' ∧
      e'.id = lastNonEmpty (fun tc => tc.id) ds e.id := by
  induction ds with
  | nil => intro e; exact ⟨e, rfl, rfl⟩
  | cons tc rest ih =>
    intro e
    obtain ⟨e', h1, h2⟩ := ih (updEntry e tc)
    refine ⟨e', h1, ?_⟩
    rw [h2, lastNonEmpty, updEntry_id]

theorem accumAt_some_type (ds : List ToolCallDelta) :
    ∀ e : LLMToolCall, ∃ e', accumAt ds (some e) = some e' ∧
      e'.type = lastNonEmpty (fun tc => tc.type) ds e.type := by
  induction ds with
  | nil => intro e; exact ⟨e, rfl, rfl⟩
  | cons tc rest ih =>
    intro e
    obtain ⟨e', h1, h2⟩ := ih (updEntry e tc)
    refine ⟨e', h1, ?_⟩
    rw [h2, lastNonEmpty, updEntry_type]

/-- Effect of one loop iteration on the entry at the index it addresses. -/
theorem processOne_map_self (st : StreamState) (tc : ToolCallDelta) :
    alGet ((processOneToolCallDelta st tc).1).toolCallMap (effIndex tc) =
      some (updEntry ((alGet st.toolCallMap (effIndex tc)).getD (initEntry tc)) tc) := by
  simp only [processOneToolCallDelta]
  exact alGet_alSet_self _ _ _

/-- One loop iteration leaves entries at other indices untouched. -/
theorem processOne_map_ne (st : StreamState) (tc : ToolCallDelta) (k : Int)
    (h : effIndex tc ≠ k) :
    alGet ((processOneToolCallDelta st tc).1).toolCallMap k =
      alGet st.toolCallMap k := by
  simp only [processOneToolCallDelta]
  exact alGet_alSet_ne _ _ _ _ h

/-- The entry at index `k` after a run of the loop is the pure replay of
the deltas addressed to `k`, in arrival order. -/
theorem procDeltas_map_at (ds : List ToolCallDelta) :
    ∀ (st : StreamState) (k : Int),
      alGet ((procDeltas st ds).1).toolCallMap k =
        accumAt (ds.filter (fun tc => effIndex tc == k)) (alGet st.toolCallMap k) := by
  induction ds with
  | nil => intro st k; rfl
  | cons tc rest ih =>
    intro st k
    by_cases h : effIndex tc = k
    · have hmem : alGet ((processOneToolCallDelta st tc).1).toolCallMap k =
          some (updEntry ((alGet st.toolCallMap k).getD (initEntry tc)) tc) := by
        rw [← h]; exact processOne_map_self st tc
      have hp : (effIndex tc == k) = true := by simp [h]
      simp only [procDeltas, List.filter_cons, hp, if_true]
      rw [ih, hmem, accumAt]
    · have hne : (effIndex tc == k) = false := by
        simp [h]
      simp only [procDeltas, List.filter_cons, hne, Bool.false_eq_true, if_false]
      rw [ih, processOne_map_ne st tc k h]

theorem procDeltas_append (a b : List ToolCallDelta) :
    ∀ st : StreamState, procDeltas st (a ++ b) =
      ((procDeltas (procDeltas st a).1 b).1,
       (procDeltas st a).2 ++ (procDeltas (procDeltas st a).1 b).2) := by
  induction a with
  | nil => intro st; simp [procDeltas]
  | cons tc rest ih =>
    intro st
    simp only [List.cons_append, procDeltas, List.append_eq]
    rw [ih]
    simp [List.append_assoc]

/-- Per-chunk processing changes the state exactly as the plain delta run
does. -/
theorem processChunk_fst (st : StreamState) (ch : StreamChunk) :
    (processChunk st ch).1 = (procDeltas st (chunkDeltas ch)).1 := by
  unfold processChunk chunkDeltas
  match ch.choices with
  | [] => rfl
  | choice :: _ => rfl

/-- Per-chunk processing emits exactly the tagged notifications of the
plain delta run. -/
theorem processChunk_tagged (st : StreamState) (ch : StreamChunk) :
    (processChunk st ch).2.2 = (procDeltas st (chunkDeltas ch)).2 := by
  unfold processChunk chunkDeltas
  match ch.choices with
  | [] => rfl
  | choice :: _ => rfl

theorem runChunks_fst (chunks : List StreamChunk) :
    ∀ st : StreamState,
      (runChunks st chunks).1 = (procDeltas st (streamDeltas chunks)).1 := by
  induction chunks with
  | nil => intro st; rfl
  | cons ch rest ih =>
    intro st
    simp only [runChunks, streamDeltas, List.map_cons, List.flatten_cons]
    rw [procDeltas_append, ih, processChunk_fst]
    rfl

theorem runChunks_tagged (chunks : List StreamChunk) :
    ∀ st : StreamState,
      (runChunks st chunks).2.2 = (procDeltas st (streamDeltas chunks)).2 := by
  induction chunks with
  | nil => intro st; rfl
  | cons ch rest ih =>
    intro st
    simp only [runChunks, streamDeltas, List.map_cons, List.flatten_cons]
    rw [procDeltas_append, ih, processChunk_fst, processChunk_tagged]
    simp [streamDeltas]

/-- C1 helper: the final entry of a stream at index `k` is the pure replay
of the deltas addressed to `k`. -/
theorem streamFinalState_map_at (chunks : List StreamChunk) (k : Int) :
    alGet (streamFinalState chunks).toolCallMap k =
      accumAt ((streamDeltas chunks).filter (fun tc => effIndex tc == k)) none := by
  unfold streamFinalState
  rw [runChunks_fst, procDeltas_map_at]
  rfl

/-- C1: for every remote streaming call and every tool-call index that at
least one delta addresses, the final accumulated entry's name is the
concatenation of all name fragments for that index in arrival order, the
arguments are the concatenation of all arguments fragments in arrival
order, and the id and type hold the last non-empty fragment (overwrite,
not append). -/
theorem c1_accumulation_correct (chunks : List StreamChunk) (k : Int)
    (h : (streamDeltas chunks).filter (fun tc => effIndex tc == k) ≠ []) :
    ∃ e : LLMToolCall,
      alGet (streamFinalState chunks).toolCallMap k = some e ∧
      e.function.name =
        concatNames ((streamDeltas chunks).filter (fun tc => effIndex tc == k)) ∧
      e.function.arguments =
        concatArgs ((streamDeltas chunks).filter (fun tc => effIndex tc == k)) ∧
      e.id = lastNonEmpty (fun tc => tc.id)
        ((streamDeltas chunks).filter (fun tc => effIndex tc == k)) "" ∧
      e.type = lastNonEmpty (fun tc => tc.type)
        ((streamDeltas chunks).filter (fun tc => effIndex tc == k)) "" := by
  rw [streamFinalState_map_at]
  set ds := (streamDeltas chunks).filter (fun tc => effIndex tc == k) with hds
  match ds, h with
  | tc :: rest, _ =>
    have hbase : accumAt (tc :: rest) none =
        accumAt rest (some (updEntry (initEntry tc) tc)) := rfl
    obtain ⟨e₁, hn1, hn2⟩ := accumAt_some_name rest (updEntry (initEntry tc) tc)
    obtain ⟨e₂, ha1, ha2⟩ := accumAt_some_args rest (updEntry (initEntry tc) tc)
    obtain ⟨e₃, hi1, hi2⟩ := accumAt_some_id rest (updEntry (initEntry tc) tc)
    obtain ⟨e₄, ht1, ht2⟩ := accumAt_some_type rest (updEntry (initEntry tc) tc)
    have he21 : e₂ = e₁ := Option.some_injective _ (ha1.symm.trans hn1)
    have he31 : e₃ = e₁ := Option.some_injective _ (hi1.symm.trans hn1)
    have he41 : e₄ = e₁ := Option.some_injective _ (ht1.symm.trans hn1)
    rw [he21] at ha2
    rw [he31] at hi2
    rw [he41] at ht2
    refine ⟨e₁, by rw [hbase, hn1], ?_, ?_, ?_, ?_⟩
    · rw [hn2, updEntry_name, concatNames]
      simp [initEntry, str_append_assoc]
    · rw [ha2, updEntry_args, concatArgs]
      simp [initEntry, str_append_assoc]
    · rw [hi2, lastNonEmpty, updEntry_id]
      simp [initEntry]
    · rw [ht2, lastNonEmpty, updEntry_type]
      rcases eq_or_ne tc.type "" with h0 | h0 <;> simp [initEntry, h0]

/-- A one-delta chunk, used for concrete inputs. -/
def oneDeltaChunk (d : ToolCallDelta) : StreamChunk :=
  { choices := [{ delta := { content := "", toolCalls := [d] }, finishReason := "" }] }

/-- The stream of the specification's accumulation example (fragmented
name and arguments for index 0). -/
def c1ExampleChunks : List StreamChunk :=
  [oneDeltaChunk { index := some 0, id := "call_9", type := "function",
                   function := { name := "get_", arguments := "" } },
   oneDeltaChunk { index := some 0, id := "", type := "",
                   function := { name := "weather", arguments := "ci" } },
   oneDeltaChunk { index := some 0, id := "", type := "",
                   function := { name := "", arguments := "ty" } }]

/-- Witness for C1 at the specification's example: index 0 receives three
fragments and the accumulated entry concatenates them. -/
theorem c1_accumulation_correct_witness :
    (streamDeltas c1ExampleChunks).filter (fun tc => effIndex tc == 0) ≠ [] ∧
    (∃ e : LLMToolCall,
      alGet (streamFinalState c1ExampleChunks).toolCallMap 0 = some e ∧
      e.function.name =
        concatNames ((streamDeltas c1ExampleChunks).filter (fun tc => effIndex tc == 0)) ∧
      e.function.arguments =
        concatArgs ((streamDeltas c1ExampleChunks).filter (fun tc => effIndex tc == 0)) ∧
      e.id = lastNonEmpty (fun tc => tc.id)
        ((streamDeltas c1ExampleChunks).filter (fun tc => effIndex tc == 0)) "" ∧
      e.type = lastNonEmpty (fun tc => tc.type)
        ((streamDeltas c1ExampleChunks).filter (fun tc => effIndex tc == 0)) "") :=
  ⟨by decide, c1_accumulation_correct c1ExampleChunks 0 (by decide)⟩

/-! ### Lemmas about the tool-call-started notification -/

/-- The updated entry a delta produces (lookup-or-create, then update). -/
def deltaEntry (st : StreamState) (tc : ToolCallDelta) : LLMToolCall :=
  updEntry ((alGet st.toolCallMap (effIndex tc)).getD (initEntry tc)) tc

/-- The accumulated name recorded after the previous fragment for an
index (Go zero value `""` before any fragment). -/
def lastNameAt (st : StreamState) (k : Int) : String :=
  (alGet st.lastFunctionName k).getD ""

/-- Whether the started notification has been sent for an index (Go zero
value `false`). -/
def notifiedAt (st : StreamState) (k : Int) : Bool :=
  (alGet st.nameNotified k).getD false

/-- The exact emission condition of the loop, phrased over the state
before the delta and the delta itself. -/
def notifyCond (st : StreamState) (tc : ToolCallDelta) : Prop :=
  (deltaEntry st tc).function.name ≠ "" ∧
  (deltaEntry st tc).function.name = lastNameAt st (effIndex tc) ∧
  tc.function.arguments ≠ "" ∧
  notifiedAt st (effIndex tc) = false ∧
  (deltaEntry st tc).id ≠ ""

instance (st : StreamState) (tc : ToolCallDelta) : Decidable (notifyCond st tc) := by
  unfold notifyCond
  infer_instance

/-- The notification component of one loop iteration, characterized. -/
theorem processOne_notif_def (st : StreamState) (tc : ToolCallDelta) :
    (processOneToolCallDelta st tc).2 =
      if notifyCond st tc then
        some { responseType := .toolCall, content := "", done := false,
               toolCalls := [],
               data := some { toolName := (deltaEntry st tc).function.name,
                              toolCallID := (deltaEntry st tc).id } }
      else none := by
  simp only [processOneToolCallDelta, deltaEntry, notifyCond, lastNameAt, notifiedAt]

/-- A notification is emitted exactly when the loop's condition holds, and
it carries the accumulated name and the entry's id. -/
theorem processOne_notif_iff (st : StreamState) (tc : ToolCallDelta)
    (ev : StreamResponse) :
    (processOneToolCallDelta st tc).2 = some ev ↔
      (notifyCond st tc ∧
       ev = { responseType := .toolCall, content := "", done := false,
              toolCalls := [],
              data := some { toolName := (deltaEntry st tc).function.name,
                             toolCallID := (deltaEntry st tc).id } }) := by
  rw [processOne_notif_def]
  by_cases h : notifyCond st tc
  · simp [h, eq_comm]
  · simp [h]

/-- The notified flag at other indices is untouched by one iteration. -/
theorem processOne_notified_ne (st : StreamState) (tc : ToolCallDelta) (k : Int)
    (h : effIndex tc ≠ k) :
    notifiedAt (processOneToolCallDelta st tc).1 k = notifiedAt st k := by
  simp only [processOneToolCallDelta, notifiedAt]
  split
  · rw [alGet_alSet_ne _ _ _ _ h]
  · rfl

/-- Once set, the notified flag stays set. -/
theorem processOne_notified_mono (st : StreamState) (tc : ToolCallDelta) (k : Int)
    (h : notifiedAt st k = true) :
    notifiedAt (processOneToolCallDelta st tc).1 k = true := by
  by_cases hk : effIndex tc = k
  · simp only [processOneToolCallDelta, notifiedAt]
    split
    · by_cases hkk : effIndex tc = k
      · rw [hkk, alGet_alSet_self]; rfl
      · exact absurd hk hkk
    · exact h
  · rw [processOne_notified_ne st tc k hk]; exact h

/-- An iteration that emits no notification leaves the flag unchanged. -/
theorem processOne_notified_of_none (st : StreamState) (tc : ToolCallDelta) (k : Int)
    (h : (processOneToolCallDelta st tc).2 = none) :
    notifiedAt (processOneToolCallDelta st tc).1 k = notifiedAt st k := by
  by_cases hc : notifyCond st tc
  · rw [processOne_notif_def, if_pos hc] at h
    exact absurd h (by simp)
  · simp only [processOneToolCallDelta, notifiedAt]
    split
    · next hcond => exact absurd hcond hc
    · rfl

/-- Emission requires the flag to be clear. -/
theorem processOne_notif_requires (st : StreamState) (tc : ToolCallDelta)
    (ev : StreamResponse) (h : (processOneToolCallDelta st tc).2 = some ev) :
    notifiedAt st (effIndex tc) = false :=
  ((processOne_notif_iff st tc ev).mp h).1.2.2.2.1

/-- Emission sets the flag. -/
theorem processOne_notif_sets (st : StreamState) (tc : ToolCallDelta)
    (ev : StreamResponse) (h : (processOneToolCallDelta st tc).2 = some ev) :
    notifiedAt (processOneToolCallDelta st tc).1 (effIndex tc) = true := by
  by_cases hc : notifyCond st tc
  · simp only [processOneToolCallDelta, notifiedAt]
    split
    · rw [alGet_alSet_self]; rfl
    · next hcond => exact absurd hc hcond
  · rw [processOne_notif_def, if_neg hc] at h
    exact absurd h (by simp)

/-- Every emitted notification is `tool_call`-typed. -/
theorem processOne_notif_type (st : StreamState) (tc : ToolCallDelta)
    (ev : StreamResponse) (h : (processOneToolCallDelta st tc).2 = some ev) :
    ev.responseType = .toolCall := by
  rw [((processOne_notif_iff st tc ev).mp h).2]

/-- After the flag for `k` is set, no further notification for `k` is
emitted. -/
theorem procDeltas_no_notif_of_notified (ds : List ToolCallDelta) :
    ∀ (st : StreamState) (k : Int), notifiedAt st k = true →
      (procDeltas st ds).2.filter (fun p => p.1 == k) = [] := by
  induction ds with
  | nil => intro st k _; rfl
  | cons tc rest ih =>
    intro st k h
    simp only [procDeltas]
    rw [List.filter_append]
    have hrest := ih (processOneToolCallDelta st tc).1 k
      (processOne_notified_mono st tc k h)
    rw [hrest, List.append_nil]
    match hv : (processOneToolCallDelta st tc).2 with
    | none => rfl
    | some ev =>
      have hne : effIndex tc ≠ k := by
        intro hk
        have := processOne_notif_requires st tc ev hv
        rw [hk, h] at this
        simp at this
      simp [hne]

/-- At most one notification per index over any delta list. -/
theorem procDeltas_notif_count (ds : List ToolCallDelta) :
    ∀ (st : StreamState) (k : Int),
      ((procDeltas st ds).2.filter (fun p => p.1 == k)).length ≤ 1 := by
  induction ds with
  | nil => intro st k; simp [procDeltas]
  | cons tc rest ih =>
    intro st k
    simp only [procDeltas]
    rw [List.filter_append, List.length_append]
    match hv : (processOneToolCallDelta st tc).2 with
    | none =>
      simp only [List.filter_nil, List.length_nil, Nat.zero_add]
      exact ih _ k
    | some ev =>
      by_cases hk : effIndex tc = k
      · have hset : notifiedAt (processOneToolCallDelta st tc).1 k = true := by
          rw [← hk]; exact processOne_notif_sets st tc ev hv
        rw [procDeltas_no_notif_of_notified rest _ k hset]
        simp [hk]
      · have : ((effIndex tc, ev) :: []).filter (fun p => p.1 == k) = [] := by
          simp [hk]
        rw [this]
        simp only [List.length_nil, Nat.zero_add]
        exact ih _ k

theorem procDeltas_tagged_type (ds : List ToolCallDelta) :
    ∀ (st : StreamState) (p : Int × StreamResponse), p ∈ (procDeltas st ds).2 →
      p.2.responseType = .toolCall := by
  induction ds with
  | nil => intro st p hp; simp [procDeltas] at hp
  | cons tc rest ih =>
    intro st p hp
    simp only [procDeltas, List.mem_append] at hp
    rcases hp with hp | hp
    · match hv : (processOneToolCallDelta st tc).2 with
      | none => rw [hv] at hp; simp at hp
      | some ev =>
        rw [hv] at hp
        simp at hp
        rw [hp]
        exact processOne_notif_type st tc ev hv
    · exact ih _ p hp

/-- `tool_call`-typed events of one chunk are exactly its notifications. -/
theorem processChunk_events_filter (st : StreamState) (ch : StreamChunk) :
    (processChunk st ch).2.1.filter (fun ev => ev.responseType == ResponseType.toolCall) =
      ((processChunk st ch).2.2).map (fun p => p.2) := by
  obtain ⟨chs⟩ := ch
  cases chs with
  | nil => rfl
  | cons choice rest =>
    simp only [processChunk]
    rw [List.filter_append, List.filter_append]
    have h1 : ∀ ev ∈ ((procDeltas st choice.delta.toolCalls).2.map (fun p => p.2)),
        (ev.responseType == ResponseType.toolCall) = true := by
      intro ev hev
      obtain ⟨p, hp, hpe⟩ := List.mem_map.mp hev
      rw [← hpe]
      simp [procDeltas_tagged_type choice.delta.toolCalls st p hp]
    rw [List.filter_eq_self.mpr h1]
    split <;> split <;> simp

theorem runChunks_events_filter (chunks : List StreamChunk) :
    ∀ st : StreamState,
      (runChunks st chunks).2.1.filter (fun ev => ev.responseType == ResponseType.toolCall) =
        ((runChunks st chunks).2.2).map (fun p => p.2) := by
  induction chunks with
  | nil => intro st; rfl
  | cons ch rest ih =>
    intro st
    simp only [runChunks]
    rw [List.filter_append, List.map_append, processChunk_events_filter, ih]

/-- `tool_call`-typed events of a full stream are exactly its tagged
notifications (the terminal event is `answer`-typed). -/
theorem runStream_filter_toolCall (chunks : List StreamChunk) :
    (runStream chunks).filter (fun ev => ev.responseType == ResponseType.toolCall) =
      (streamNotifs chunks).map (fun p => p.2) := by
  unfold runStream streamNotifs
  rw [List.filter_append, runChunks_events_filter]
  simp [finalDoneEvent]

/-- C2: per index, at most one `tool_call`-typed event is emitted over an
entire stream (the `tool_call` events being exactly the tagged
notifications), and a notification is emitted on a delta only when, on
that single delta, the accumulated name is non-empty, it equals the
accumulated name recorded after the previous fragment for that index, the
delta appended to arguments, no notification was previously sent for that
index, and the entry's id is known; the event carries that name and id in
its data. -/
theorem c2_notification_exactly_once (chunks : List StreamChunk) (k : Int) :
    ((streamNotifs chunks).filter (fun p => p.1 == k)).length ≤ 1 ∧
    (runStream chunks).filter (fun ev => ev.responseType == ResponseType.toolCall) =
      (streamNotifs chunks).map (fun p => p.2) ∧
    (∀ (st : StreamState) (tc : ToolCallDelta) (ev : StreamResponse),
      (processOneToolCallDelta st tc).2 = some ev →
        notifyCond st tc ∧
        ev = { responseType := .toolCall, content := "", done := false,
               toolCalls := [],
               data := some { toolName := (deltaEntry st tc).function.name,
                              toolCallID := (deltaEntry st tc).id } }) := by
  refine ⟨?_, runStream_filter_toolCall chunks, ?_⟩
  · unfold streamNotifs
    rw [runChunks_tagged]
    exact procDeltas_notif_count _ _ k
  · intro st tc ev h
    exact (processOne_notif_iff st tc ev).mp h

/-- A state one argument fragment away from the notification: name
stabilized, id known, not yet notified. -/
def c2State : StreamState :=
  { toolCallMap := [(0, { id := "call_1", type := "function",
                          function := { name := "f", arguments := "a" } })],
    lastFunctionName := [(0, "f")],
    nameNotified := [] }

/-- The delta that triggers the notification for `c2State`. -/
def c2Delta : ToolCallDelta :=
  { index := some 0, id := "", type := "",
    function := { name := "", arguments := "b" } }

/-- Witness for C2: on a concrete delta the notification fires, the
emission condition holds, and the event carries the stabilized name and
the known id. -/
theorem c2_notification_exactly_once_witness :
    (processOneToolCallDelta c2State c2Delta).2 =
      some { responseType := .toolCall, content := "", done := false,
             toolCalls := [],
             data := some { toolName := "f", toolCallID := "call_1" } } ∧
    (notifyCond c2State c2Delta ∧
     ({ responseType := .toolCall, content := "", done := false,
        toolCalls := [],
        data := some { toolName := "f", toolCallID := "call_1" } } : StreamResponse) =
       { responseType := .toolCall, content := "", done := false,
         toolCalls := [],
         data := some { toolName := (deltaEntry c2State c2Delta).function.name,
                        toolCallID := (deltaEntry c2State c2Delta).id } }) :=
  ⟨by decide,
   (c2_notification_exactly_once [] 0).2.2 c2State c2Delta _ (by decide)⟩

/-! ### Terminal-event lemmas -/

/-- The transport-termination event is always the last event of a remote
stream. -/
theorem runStream_getLast (chunks : List StreamChunk) :
    (runStream chunks).getLast? = some (finalDoneEvent (streamFinalState chunks)) := by
  unfold runStream streamFinalState
  exact List.getLast?_concat _

/-- A remote stream always contains at least one `done` event. -/
theorem runStream_done_count_pos (chunks : List StreamChunk) :
    1 ≤ (runStream chunks).countP (fun ev => ev.done) := by
  unfold runStream
  rw [List.countP_append]
  simp [finalDoneEvent, List.countP_cons]

/-- The local stream contains a `done` event whenever the runtime reports
completion or the callback stream ends with an error. -/
theorem localStreamEvents_done_of (resps : List OllamaChatResponse) (errAfter : Bool)
    (h : errAfter = true ∨ ∃ r ∈ resps, r.done = true) :
    ∃ ev ∈ localStreamEvents resps errAfter, ev.done = true := by
  rcases h with h | ⟨r, hr, hd⟩
  · refine ⟨{ responseType := .answer, content := "", done := true }, ?_, rfl⟩
    unfold localStreamEvents
    rw [h, List.mem_append]
    right
    simp
  · refine ⟨{ responseType := .answer, content := "", done := true }, ?_, rfl⟩
    unfold localStreamEvents
    rw [List.mem_append]
    left
    rw [List.mem_flatten]
    refine ⟨_, List.mem_map.mpr ⟨r, hr, rfl⟩, ?_⟩
    rw [List.mem_append]
    right
    simp [hd]

/-- A chunk carrying a provider finish signal together with accumulated
tool calls: the loop emits an inline terminal event for it, and the
transport-termination path emits a second one. -/
def c3Chunk : StreamChunk :=
  { choices := [{ delta := { content := "",
                             toolCalls := [{ index := some 0, id := "call_1",
                                             type := "function",
                                             function := { name := "f",
                                                           arguments := "" } }] },
                  finishReason := "tool_calls" }] }

/-- C3 fails as stated: on a stream whose single chunk carries a finish
reason and a tool-call delta, the remote adapter produces two events with
`done = true`, not exactly one. -/
theorem c3_counterexample :
    (runStream [c3Chunk]).countP (fun ev => ev.done) = 2 ∧
    (runStream [c3Chunk]).countP (fun ev => ev.done) ≠ 1 := by
  decide

/-- C3 amended: for every initiated stream at least one `done = true`
event is produced — whether the provider signals completion, returns an
error, or the transport closes unexpectedly — the remote stream's last
event always has `done = true` and carries the final snapshot of the
accumulated tool calls, and the local stream contains a `done = true`
event whenever the runtime reports completion or the callback stream ends
with an error. -/
theorem c3_terminal_guarantee_amended :
    (∀ chunks : List StreamChunk,
      (runStream chunks).getLast? = some (finalDoneEvent (streamFinalState chunks)) ∧
      (finalDoneEvent (streamFinalState chunks)).done = true ∧
      (finalDoneEvent (streamFinalState chunks)).toolCalls =
        buildOrderedToolCalls (streamFinalState chunks).toolCallMap ∧
      1 ≤ (runStream chunks).countP (fun ev => ev.done)) ∧
    (∀ (resps : List OllamaChatResponse) (errAfter : Bool),
      (errAfter = true ∨ ∃ r ∈ resps, r.done = true) →
        ∃ ev ∈ localStreamEvents resps errAfter, ev.done = true) := by
  constructor
  · intro chunks
    exact ⟨runStream_getLast chunks, rfl, rfl, runStream_done_count_pos chunks⟩
  · intro resps errAfter h
    exact localStreamEvents_done_of resps errAfter h

/-- Witness for the amended C3 at a concrete input: a local stream ending
in a runtime error yields a terminal `done` event. -/
theorem c3_terminal_guarantee_amended_witness :
    (true = true ∨ ∃ r ∈ ([] : List OllamaChatResponse), r.done = true) ∧
    (∃ ev ∈ localStreamEvents [] true, ev.done = true) :=
  ⟨Or.inl rfl,
   c3_terminal_guarantee_amended.2 [] true (Or.inl rfl)⟩

/-- C5: errors before a stream starts are returned synchronously and no
stream is produced (stream-creation failure on the remote adapter,
model-availability failure on the local adapter); errors after the stream
has started are never surfaced as typed errors — the stream still ends
with an ordinary `done = true` event carrying whatever was accumulated. -/
theorem c5_error_asymmetry :
    (∀ e : String,
      chatStreamRemote (.error e) = .error ("create chat completion stream: " ++ e)) ∧
    (∀ chunks : List StreamChunk,
      chatStreamRemote (.ok chunks) = .ok (runStream chunks)) ∧
    (∀ chunks : List StreamChunk,
      (runStream chunks).getLast? = some (finalDoneEvent (streamFinalState chunks)) ∧
      (finalDoneEvent (streamFinalState chunks)).done = true) ∧
    (∀ (e : String) (resps : List OllamaChatResponse) (errAfter : Bool),
      ollamaChatStream (some e) resps errAfter = .error e) ∧
    (∀ (resps : List OllamaChatResponse) (errAfter : Bool),
      ollamaChatStream none resps errAfter = .ok (localStreamEvents resps errAfter)) ∧
    (∀ resps : List OllamaChatResponse,
      ∃ ev ∈ localStreamEvents resps true, ev.done = true) := by
  refine ⟨fun e => rfl, fun chunks => rfl, ?_, fun e resps errAfter => rfl,
    fun resps errAfter => rfl, ?_⟩
  · intro chunks
    exact ⟨runStream_getLast chunks, rfl⟩
  · intro resps
    exact localStreamEvents_done_of resps true (Or.inl rfl)

/-! ### Snapshot ordering -/

theorem filterMap_filter_isSome {α : Type} (f : ℕ → Option α) (l : List ℕ) :
    (l.filter (fun i => (f i).isSome)).filterMap f = l.filterMap f := by
  induction l with
  | nil => rfl
  | cons a as ih =>
    by_cases h : (f a).isSome
    · cases hfa : f a with
      | none => simp [hfa] at h
      | some v => simp [List.filter, List.filterMap, hfa, ih]
    · cases hfa : f a with
      | none => simp [List.filter, List.filterMap, hfa, ih]
      | some v => simp [hfa] at h

/-- A stream whose only delta addresses index 1: the entry is accumulated
at a sparse index not less than the map size. -/
def c4Chunk : StreamChunk :=
  oneDeltaChunk { index := some 1, id := "call_1", type := "function",
                  function := { name := "f", arguments := "x" } }

/-- C4 fails as stated: after a stream whose only delta addresses index 1,
the accumulated entry exists, yet every snapshot — including the terminal
one — is empty, because the loop iterates `0 ≤ i < len(toolCallMap)` and
never reaches the sparse index. -/
theorem c4_counterexample :
    alGet (streamFinalState [c4Chunk]).toolCallMap 1 =
      some { id := "call_1", type := "function",
             function := { name := "f", arguments := "x" } } ∧
    buildOrderedToolCalls (streamFinalState [c4Chunk]).toolCallMap = [] ∧
    (finalDoneEvent (streamFinalState [c4Chunk])).toolCalls = [] := by
  decide

/-- C4 amended: every snapshot lists entries in ascending index order with
no duplicate indices, built by iterating index `0` up to the number of
accumulated entries minus one and skipping absent indices; every entry at
an index below the entry count appears (an entry at an index not less
than the entry count is omitted). -/
theorem c4_snapshot_order_amended (m : List (Int × LLMToolCall)) :
    ((List.range m.length).filter (fun i => (alGet m (Int.ofNat i)).isSome)).Pairwise (· < ·) ∧
    buildOrderedToolCalls m =
      ((List.range m.length).filter (fun i => (alGet m (Int.ofNat i)).isSome)).filterMap
        (fun i => alGet m (Int.ofNat i)) ∧
    (∀ (e : LLMToolCall) (i : ℕ), i < m.length → alGet m (Int.ofNat i) = some e →
      e ∈ buildOrderedToolCalls m) := by
  refine ⟨List.Pairwise.filter _ (List.pairwise_lt_range _), ?_, ?_⟩
  · rw [filterMap_filter_isSome]
    rfl
  · intro e i hi hget
    unfold buildOrderedToolCalls
    exact List.mem_filterMap.mpr ⟨i, List.mem_range.mpr hi, hget⟩

/-- A one-entry map at index 0, fully dense. -/
def c4Map : List (Int × LLMToolCall) :=
  [(0, { id := "call_1", type := "function",
         function := { name := "f", arguments := "x" } })]

/-- Witness for the amended C4: in a dense one-entry map the entry at
index 0 appears in the snapshot. -/
theorem c4_snapshot_order_amended_witness :
    (0 < c4Map.length) ∧
    alGet c4Map (Int.ofNat 0) =
      some { id := "call_1", type := "function",
             function := { name := "f", arguments := "x" } } ∧
    ({ id := "call_1", type := "function",
       function := { name := "f", arguments := "x" } } : LLMToolCall) ∈
      buildOrderedToolCalls c4Map :=
  ⟨by decide, by decide,
   (c4_snapshot_order_amended c4Map).2.2 _ 0 (by decide) (by decide)⟩

/-! ### Request-shaping lemmas (remote adapter) -/

/-- The built request's `temperature` is decided by the temperature
option alone. -/
theorem build_some_temperature (c : RemoteAPIChat) (msgs : List Message)
    (o : ChatOptions) (s : Bool) :
    (buildChatCompletionRequest c msgs (some o) s).temperature =
      if o.temperature > 0 then o.temperature else 0 := by
  simp only [buildChatCompletionRequest]
  simp [apply_ite (f := ChatCompletionRequest.temperature)]

theorem build_some_topP (c : RemoteAPIChat) (msgs : List Message)
    (o : ChatOptions) (s : Bool) :
    (buildChatCompletionRequest c msgs (some o) s).topP =
      if o.topP > 0 then o.topP else 0 := by
  simp only [buildChatCompletionRequest]
  simp [apply_ite (f := ChatCompletionRequest.topP)]

theorem build_some_maxTokens (c : RemoteAPIChat) (msgs : List Message)
    (o : ChatOptions) (s : Bool) :
    (buildChatCompletionRequest c msgs (some o) s).maxTokens =
      if o.maxTokens > 0 then o.maxTokens else 0 := by
  simp only [buildChatCompletionRequest]
  simp [apply_ite (f := ChatCompletionRequest.maxTokens)]

theorem build_some_maxCompletionTokens (c : RemoteAPIChat) (msgs : List Message)
    (o : ChatOptions) (s : Bool) :
    (buildChatCompletionRequest c msgs (some o) s).maxCompletionTokens =
      if o.maxCompletionTokens > 0 then o.maxCompletionTokens else 0 := by
  simp only [buildChatCompletionRequest]
  simp [apply_ite (f := ChatCompletionRequest.maxCompletionTokens)]

theorem build_some_frequencyPenalty (c : RemoteAPIChat) (msgs : List Message)
    (o : ChatOptions) (s : Bool) :
    (buildChatCompletionRequest c msgs (some o) s).frequencyPenalty =
      if o.frequencyPenalty > 0 then o.frequencyPenalty else 0 := by
  simp only [buildChatCompletionRequest]
  simp [apply_ite (f := ChatCompletionRequest.frequencyPenalty)]

theorem build_some_presencePenalty (c : RemoteAPIChat) (msgs : List Message)
    (o : ChatOptions) (s : Bool) :
    (buildChatCompletionRequest c msgs (some o) s).presencePenalty =
      if o.presencePenalty > 0 then o.presencePenalty else 0 := by
  simp only [buildChatCompletionRequest]
  simp [apply_ite (f := ChatCompletionRequest.presencePenalty)]

/-- For a DeepSeek model the outgoing request never carries a
`tool_choice`, whatever the caller asked for. -/
theorem build_some_toolChoice_deepseek (c : RemoteAPIChat) (msgs : List Message)
    (o : ChatOptions) (s : Bool) (h : isDeepSeekModel c = true) :
    (buildChatCompletionRequest c msgs (some o) s).toolChoice = .unset := by
  simp only [buildChatCompletionRequest]
  simp [apply_ite (f := ChatCompletionRequest.toolChoice), h]

/-- For a non-DeepSeek model the three literal directives pass through as
strings. -/
theorem build_some_toolChoice_literal (c : RemoteAPIChat) (msgs : List Message)
    (o : ChatOptions) (s : Bool) (h1 : isDeepSeekModel c = false)
    (h2 : o.toolChoice = "none" ∨ o.toolChoice = "required" ∨ o.toolChoice = "auto") :
    (buildChatCompletionRequest c msgs (some o) s).toolChoice = .str o.toolChoice := by
  simp only [buildChatCompletionRequest]
  rcases h2 with h | h | h <;>
    simp [apply_ite (f := ChatCompletionRequest.toolChoice), h1, h]

/-- For a non-DeepSeek model any other non-empty directive is wrapped into
a structured named-tool directive. -/
theorem build_some_toolChoice_named (c : RemoteAPIChat) (msgs : List Message)
    (o : ChatOptions) (s : Bool) (h1 : isDeepSeekModel c = false)
    (h2 : o.toolChoice ≠ "")
    (h3 : ¬(o.toolChoice = "none" ∨ o.toolChoice = "required" ∨ o.toolChoice = "auto")) :
    (buildChatCompletionRequest c msgs (some o) s).toolChoice = .named o.toolChoice := by
  simp only [buildChatCompletionRequest]
  simp [apply_ite (f := ChatCompletionRequest.toolChoice), h1, h2, h3]

/-- The local options bag contains each key exactly when the matching
option is strictly positive. -/
theorem buildChatRequest_options_mem (oc : OllamaChat) (msgs : List Message)
    (o : ChatOptions) (s : Bool) :
    ("temperature" ∈ ((buildChatRequest oc msgs (some o) s).options).map Prod.fst ↔
      o.temperature > 0) ∧
    ("top_p" ∈ ((buildChatRequest oc msgs (some o) s).options).map Prod.fst ↔
      o.topP > 0) ∧
    ("num_predict" ∈ ((buildChatRequest oc msgs (some o) s).options).map Prod.fst ↔
      o.maxTokens > 0) := by
  simp only [buildChatRequest]
  by_cases h1 : o.temperature > 0 <;> by_cases h2 : o.topP > 0 <;>
    by_cases h3 : o.maxTokens > 0 <;> simp [h1, h2, h3]

/-- A remote configuration outside both vendor families. -/
def c6Chat : RemoteAPIChat :=
  { modelName := "gpt-4", modelID := "m1", baseURL := "", apiKey := "" }

/-- Options with a meaningful negative penalty (the API range is
−2.0 … 2.0). -/
def c6Opts : ChatOptions := { frequencyPenalty := -1 }

def c6OllamaChat : OllamaChat := { modelName := "llama3", modelID := "m2" }

def c6OllamaOpts : ChatOptions := { temperature := -1 }

/-- C6 fails as stated: a non-zero (negative) `frequency_penalty` is not
forwarded by the remote adapter, and a non-zero (negative) `temperature`
is not forwarded by the local adapter — the code forwards only strictly
positive values. -/
theorem c6_counterexample :
    c6Opts.frequencyPenalty ≠ 0 ∧
    (buildChatCompletionRequest c6Chat [] (some c6Opts) false).frequencyPenalty = 0 ∧
    c6OllamaOpts.temperature ≠ 0 ∧
    ¬("temperature" ∈
        ((buildChatRequest c6OllamaChat [] (some c6OllamaOpts) false).options).map Prod.fst) := by
  decide

/-- C6 amended: every numeric sampling option is forwarded if and only if
the caller set it to a strictly positive value; when zero or negative it
is omitted so the provider default applies. -/
theorem c6_forward_iff_positive_amended (c : RemoteAPIChat) (oc : OllamaChat)
    (msgs : List Message) (o : ChatOptions) (s : Bool) :
    ((buildChatCompletionRequest c msgs (some o) s).temperature =
      if o.temperature > 0 then o.temperature else 0) ∧
    ((buildChatCompletionRequest c msgs (some o) s).topP =
      if o.topP > 0 then o.topP else 0) ∧
    ((buildChatCompletionRequest c msgs (some o) s).maxTokens =
      if o.maxTokens > 0 then o.maxTokens else 0) ∧
    ((buildChatCompletionRequest c msgs (some o) s).maxCompletionTokens =
      if o.maxCompletionTokens > 0 then o.maxCompletionTokens else 0) ∧
    ((buildChatCompletionRequest c msgs (some o) s).frequencyPenalty =
      if o.frequencyPenalty > 0 then o.frequencyPenalty else 0) ∧
    ((buildChatCompletionRequest c msgs (some o) s).presencePenalty =
      if o.presencePenalty > 0 then o.presencePenalty else 0) ∧
    ("temperature" ∈ ((buildChatRequest oc msgs (some o) s).options).map Prod.fst ↔
      o.temperature > 0) ∧
    ("top_p" ∈ ((buildChatRequest oc msgs (some o) s).options).map Prod.fst ↔
      o.topP > 0) ∧
    ("num_predict" ∈ ((buildChatRequest oc msgs (some o) s).options).map Prod.fst ↔
      o.maxTokens > 0) :=
  ⟨build_some_temperature c msgs o s, build_some_topP c msgs o s,
   build_some_maxTokens c msgs o s, build_some_maxCompletionTokens c msgs o s,
   build_some_frequencyPenalty c msgs o s, build_some_presencePenalty c msgs o s,
   (buildChatRequest_options_mem oc msgs o s).1,
   (buildChatRequest_options_mem oc msgs o s).2.1,
   (buildChatRequest_options_mem oc msgs o s).2.2⟩

/-- C7: for a DeepSeek model (case-insensitive name substring) a request
built with a non-empty `tool_choice` carries no `tool_choice` at all; for
any other model the literal directives pass through as strings and any
other non-empty value becomes a structured named-tool directive. -/
theorem c7_deepseek_tool_choice (c : RemoteAPIChat) (msgs : List Message)
    (o : ChatOptions) (s : Bool) (h : o.toolChoice ≠ "") :
    (isDeepSeekModel c = true →
      (buildChatCompletionRequest c msgs (some o) s).toolChoice = .unset) ∧
    (isDeepSeekModel c = false →
      ((o.toolChoice = "none" ∨ o.toolChoice = "required" ∨ o.toolChoice = "auto") →
        (buildChatCompletionRequest c msgs (some o) s).toolChoice = .str o.toolChoice) ∧
      (¬(o.toolChoice = "none" ∨ o.toolChoice = "required" ∨ o.toolChoice = "auto") →
        (buildChatCompletionRequest c msgs (some o) s).toolChoice = .named o.toolChoice)) :=
  ⟨fun hd => build_some_toolChoice_deepseek c msgs o s hd,
   fun hd => ⟨fun hl => build_some_toolChoice_literal c msgs o s hd hl,
              fun hn => build_some_toolChoice_named c msgs o s hd h hn⟩⟩

def c7DeepSeek : RemoteAPIChat :=
  { modelName := "DeepSeek-Chat", modelID := "m", baseURL := "", apiKey := "" }

def c7Opts : ChatOptions := { toolChoice := "auto" }

/-- Witness for C7 at a DeepSeek configuration with a non-empty
`tool_choice`. -/
theorem c7_deepseek_tool_choice_witness :
    c7Opts.toolChoice ≠ "" ∧
    ((isDeepSeekModel c7DeepSeek = true →
      (buildChatCompletionRequest c7DeepSeek [] (some c7Opts) false).toolChoice = .unset) ∧
    (isDeepSeekModel c7DeepSeek = false →
      ((c7Opts.toolChoice = "none" ∨ c7Opts.toolChoice = "required" ∨ c7Opts.toolChoice = "auto") →
        (buildChatCompletionRequest c7DeepSeek [] (some c7Opts) false).toolChoice =
          .str c7Opts.toolChoice) ∧
      (¬(c7Opts.toolChoice = "none" ∨ c7Opts.toolChoice = "required" ∨ c7Opts.toolChoice = "auto") →
        (buildChatCompletionRequest c7DeepSeek [] (some c7Opts) false).toolChoice =
          .named c7Opts.toolChoice))) :=
  ⟨by decide, c7_deepseek_tool_choice c7DeepSeek [] c7Opts false (by decide)⟩

/-- C8: a non-streaming call for the Aliyun qwen3 family goes through the
raw-HTTP route and its request always carries `enable_thinking := false`,
whatever the caller's thinking option. -/
theorem c8_qwen_thinking_disabled (c : RemoteAPIChat) (msgs : List Message)
    (opts : Option ChatOptions) (h : isAliyunQwen3Model c = true) :
    chatRoute c msgs opts =
      ChatRoute.qwenRaw (buildQwenChatCompletionRequest c msgs opts false) ∧
    (buildQwenChatCompletionRequest c msgs opts false).enableThinking = some false := by
  constructor
  · simp [chatRoute, h]
  · rfl

def c8Qwen : RemoteAPIChat :=
  { modelName := "qwen3-max", modelID := "m",
    baseURL := "https://dashscope.aliyuncs.com/compatible-mode/v1", apiKey := "" }

/-- Witness for C8 at a qwen3 configuration with thinking requested by
the caller. -/
theorem c8_qwen_thinking_disabled_witness :
    isAliyunQwen3Model c8Qwen = true ∧
    (chatRoute c8Qwen [] (some { thinking := some true }) =
      ChatRoute.qwenRaw
        (buildQwenChatCompletionRequest c8Qwen [] (some { thinking := some true }) false) ∧
    (buildQwenChatCompletionRequest c8Qwen [] (some { thinking := some true }) false).enableThinking =
      some false) :=
  ⟨by decide,
   c8_qwen_thinking_disabled c8Qwen [] (some { thinking := some true }) (by decide)⟩

/-! ### Non-streaming response handling and the local adapter's tool
behaviour -/

/-- C9: both non-streaming paths fail with an error when the provider
returns zero choices; a successful call converts the first choice,
translating its tool calls one-to-one. -/
theorem c9_zero_choices_error :
    (∀ resp : ChatCompletionResponse, resp.choices = [] →
      chatFromResponse resp = .error "no response from OpenAI" ∧
      chatGeneric (.ok resp) = .error "no response from OpenAI" ∧
      chatWithQwen 200 (.ok resp) = .error "no response from API") ∧
    (∀ (resp : ChatCompletionResponse) (choice : Choice) (rest : List Choice),
      resp.choices = choice :: rest →
      chatFromResponse resp =
        .ok { content := choice.message.content,
              finishReason := choice.finishReason,
              usage := resp.usage,
              toolCalls := convertRespToolCalls choice.message.toolCalls } ∧
      chatWithQwen 200 (.ok resp) =
        .ok { content := choice.message.content,
              finishReason := choice.finishReason,
              usage := resp.usage,
              toolCalls := convertRespToolCalls choice.message.toolCalls }) ∧
    (∀ tcs : List ToolCall,
      (convertRespToolCalls tcs).length = tcs.length ∧
      ∀ i : ℕ, (convertRespToolCalls tcs)[i]? = (tcs[i]?).map (fun tc =>
        { id := tc.id, type := tc.type,
          function := { name := tc.function.name,
                        arguments := tc.function.arguments } })) := by
  refine ⟨?_, ?_, ?_⟩
  · intro resp h
    refine ⟨?_, ?_, ?_⟩ <;> simp [chatFromResponse, chatGeneric, chatWithQwen, h]
  · intro resp choice rest h
    refine ⟨?_, ?_⟩ <;> simp [chatFromResponse, chatWithQwen, h]
  · intro tcs
    refine ⟨?_, ?_⟩
    · simp [convertRespToolCalls]
    · intro i
      simp [convertRespToolCalls, List.getElem?_map]

def c9Usage : Usage := { promptTokens := 1, completionTokens := 2, totalTokens := 3 }

def c9EmptyResp : ChatCompletionResponse := { choices := [], usage := c9Usage }

def c9Choice : Choice :=
  { message := { role := "assistant", content := "hi",
                 toolCalls := [{ id := "t1", type := "function",
                                 function := { name := "f", arguments := "a" } }] },
    finishReason := "stop" }

def c9OkResp : ChatCompletionResponse := { choices := [c9Choice], usage := c9Usage }

/-- Witness for C9: a zero-choice response errors on both paths, a
one-choice response converts the first choice. -/
theorem c9_zero_choices_error_witness :
    (c9EmptyResp.choices = [] ∧
     chatFromResponse c9EmptyResp = .error "no response from OpenAI" ∧
     chatGeneric (.ok c9EmptyResp) = .error "no response from OpenAI" ∧
     chatWithQwen 200 (.ok c9EmptyResp) = .error "no response from API") ∧
    (c9OkResp.choices = c9Choice :: [] ∧
     chatFromResponse c9OkResp =
       .ok { content := c9Choice.message.content,
             finishReason := c9Choice.finishReason,
             usage := c9OkResp.usage,
             toolCalls := convertRespToolCalls c9Choice.message.toolCalls } ∧
     chatWithQwen 200 (.ok c9OkResp) =
       .ok { content := c9Choice.message.content,
             finishReason := c9Choice.finishReason,
             usage := c9OkResp.usage,
             toolCalls := convertRespToolCalls c9Choice.message.toolCalls }) :=
  ⟨⟨rfl, c9_zero_choices_error.1 c9EmptyResp rfl⟩,
   ⟨rfl, c9_zero_choices_error.2.1 c9OkResp c9Choice [] rfl⟩⟩

/-- C10: the local adapter silently discards all tool-related inputs:
the runtime request never carries tools, its options bag holds only the
three sampling keys, the request is unchanged by the caller's `Tools` and
`ToolChoice`, message conversion keeps only role and content, and the
local stream never emits a `tool_call`-typed event or a tool-call
snapshot. -/
theorem c10_local_discards_tools :
    (∀ (oc : OllamaChat) (msgs : List Message) (opts : Option ChatOptions) (s : Bool),
      (buildChatRequest oc msgs opts s).tools = [] ∧
      (∀ kv ∈ (buildChatRequest oc msgs opts s).options,
        kv.1 = "temperature" ∨ kv.1 = "top_p" ∨ kv.1 = "num_predict")) ∧
    (∀ (oc : OllamaChat) (msgs : List Message) (o : ChatOptions) (s : Bool)
        (ts : List Tool) (tch : String),
      buildChatRequest oc msgs (some { o with tools := ts, toolChoice := tch }) s =
        buildChatRequest oc msgs (some o) s) ∧
    (∀ msgs : List Message,
      convertMessagesOllama msgs =
        msgs.map (fun m => { role := m.role, content := m.content, toolCalls := [] })) ∧
    (∀ (resps : List OllamaChatResponse) (errAfter : Bool) (ev : StreamResponse),
      ev ∈ localStreamEvents resps errAfter →
        ev.responseType = .answer ∧ ev.toolCalls = []) := by
  refine ⟨?_, ?_, ?_, ?_⟩
  · intro oc msgs opts s
    refine ⟨?_, ?_⟩
    · cases opts <;> rfl
    · intro kv hkv
      cases opts with
      | none => simp [buildChatRequest] at hkv
      | some o =>
        simp only [buildChatRequest, List.mem_append] at hkv
        rcases hkv with (h | h) | h <;> split at h <;> simp at h <;> simp [h]
  · intro oc msgs o s ts tch
    rfl
  · intro msgs
    rfl
  · intro resps errAfter ev hev
    unfold localStreamEvents at hev
    rw [List.mem_append] at hev
    rcases hev with hev | hev
    · rw [List.mem_flatten] at hev
      obtain ⟨l, hl, hev⟩ := hev
      obtain ⟨r, _, hrl⟩ := List.mem_map.mp hl
      rw [← hrl, List.mem_append] at hev
      rcases hev with hev | hev <;> split at hev <;> simp at hev <;>
        rw [hev] <;> exact ⟨rfl, rfl⟩
    · split at hev <;> simp at hev
      rw [hev]
      exact ⟨rfl, rfl⟩

def c10Resp : OllamaChatResponse :=
  { message := { role := "assistant", content := "hello" }, done := true }

/-- Witness for C10: a concrete local stream event is `answer`-typed with
no tool-call snapshot. -/
theorem c10_local_discards_tools_witness :
    ({ responseType := .answer, content := "", done := true } : StreamResponse) ∈
      localStreamEvents [c10Resp] false ∧
    (({ responseType := .answer, content := "", done := true } : StreamResponse).responseType =
        ResponseType.answer ∧
     ({ responseType := .answer, content := "", done := true } : StreamResponse).toolCalls = []) :=
  ⟨by decide,
   c10_local_discards_tools.2.2.2 [c10Resp] false _ (by decide)⟩

end WeKnora
